import Mathlib

/-!
Verification of the core of the `optimal-mouse-grouping` program:
the group-size planner (`compute_group_sizes`), the input loader's
validation logic, the MILP model builder
(`construct_mouse_grouping_model`), and the solution extraction and
validation performed after the solver returns
(`construct_and_solve_mouse_grouping_model`).

Python / numpy arithmetic is embedded over `Int` and `Rat`:
`np.divmod` on integers uses floor semantics (`Int.fdiv` / `Int.fmod`),
and float comparisons made through `np.isclose` are modelled exactly
over `Rat` with numpy's default tolerances (rtol = 1e-5, atol = 1e-8).
-/

/-- The classes of Python exceptions the embedded code can raise. -/
inductive PyError where
  | valueError (msg : String)
  | overflowError (msg : String)
  | attributeError (msg : String)
  | typeError (msg : String)
  | assertionError
deriving DecidableEq, Repr

/-! ## Group Size Planner: `compute_group_sizes` (mouse_grouping_utils.py) -/

section GroupSizePlanner

/-- `group_sizes[:k] += 1`: add 1 to the first `k` entries of the list
(for the non-negative `k` that occur in `compute_group_sizes`). -/
def addOneToPrefix : List Int → Int → List Int
  | [], _ => []
  | x :: xs, k => if 0 < k then (x + 1) :: addOneToPrefix xs (k - 1) else x :: xs

/-- Embedding of `compute_group_sizes(num_mice, min_group_size)`.

The Python body performs, in order:
`num_groups, num_remainders = np.divmod(num_mice, min_group_size)`
(floor division; numpy yields `(0, 0)` for a zero divisor, with a warning),
`group_sizes = np.repeat(min_group_size, repeats=num_groups)`
(numpy raises `ValueError` for a negative repeat count),
`num_remainders_per_group = int(np.floor(num_remainders / num_groups))`
(a zero `num_groups` makes the float division produce `inf` or `nan`,
so the `int(...)` conversion raises `OverflowError` or `ValueError`),
then adds `num_remainders_per_group` to every group, adds 1 to the first
`num_final_remainders` groups, and runs the four `assert` statements. -/
def compute_group_sizes (num_mice min_group_size : Int) : Except PyError (List Int) :=
  let num_groups : Int := if min_group_size = 0 then 0 else Int.fdiv num_mice min_group_size
  let num_remainders : Int := if min_group_size = 0 then 0 else Int.fmod num_mice min_group_size
  if num_groups < 0 then
    .error (.valueError "negative dimensions are not allowed")
  else if num_groups = 0 then
    if num_remainders = 0 then
      .error (.valueError "cannot convert float NaN to integer")
    else
      .error (.overflowError "cannot convert float infinity to integer")
  else
    let group_sizes0 : List Int := List.replicate num_groups.toNat min_group_size
    let num_remainders_per_group : Int := Int.fdiv num_remainders num_groups
    let group_sizes1 : List Int := group_sizes0.map (· + num_remainders_per_group)
    let num_final_remainders : Int := num_remainders - num_groups * num_remainders_per_group
    if ¬ (num_final_remainders = num_mice - group_sizes1.sum) then
      .error .assertionError
    else if ¬ (num_final_remainders < num_groups) then
      .error .assertionError
    else
      let group_sizes2 : List Int := addOneToPrefix group_sizes1 num_final_remainders
      if ¬ (group_sizes2.sum = num_mice) then
        .error .assertionError
      else if ¬ (group_sizes2.all (fun s => min_group_size ≤ s)) then
        .error .assertionError
      else
        .ok group_sizes2

/-- On a constant list, adding 1 to the first `k` entries yields an
explicit block form: `k` entries of `c + 1` followed by the rest. -/
lemma addOneToPrefix_replicate (n : Nat) (c : Int) :
    ∀ k : Int, 0 ≤ k → k ≤ n →
      addOneToPrefix (List.replicate n c) k =
        List.replicate k.toNat (c + 1) ++ List.replicate (n - k.toNat) c := by
  induction n with
  | zero =>
    intro k h0 h1
    have hk : k = 0 := le_antisymm (by exact_mod_cast h1) h0
    subst hk
    simp [addOneToPrefix]
  | succ n ih =>
    intro k h0 h1
    by_cases hk : 0 < k
    · have h0' : 0 ≤ k - 1 := by omega
      have h1' : k - 1 ≤ n := by
        have : k ≤ (n : Int) + 1 := by exact_mod_cast h1
        omega
      have htn : k.toNat = (k - 1).toNat + 1 := by omega
      rw [List.replicate_succ, addOneToPrefix, if_pos hk, ih (k - 1) h0' h1', htn]
      have hsub : n + 1 - ((k - 1).toNat + 1) = n - (k - 1).toNat := by omega
      simp [List.replicate_succ, hsub]
    · have hk0 : k = 0 := le_antisymm (not_lt.mp hk) h0
      subst hk0
      rw [List.replicate_succ, addOneToPrefix, if_neg hk]
      simp [List.replicate_succ]

/-- Characterization of `compute_group_sizes` on the valid domain
`1 ≤ min_group_size ≤ num_mice`: it succeeds, and the result consists of
`fr` groups of size `m + e + 1` followed by `q - fr` groups of size
`m + e`, where `q = ⌊n/m⌋`, `r = n mod m`, `e = ⌊r/q⌋`, `fr = r mod q`. -/
lemma compute_group_sizes_spec (n m : Int) (hm : 1 ≤ m) (hmn : m ≤ n) :
    ∃ q e fr : Int,
      0 < q ∧ 0 ≤ e ∧ 0 ≤ fr ∧ fr < q ∧
      q * e + fr = Int.fmod n m ∧
      m * q + Int.fmod n m = n ∧
      0 ≤ Int.fmod n m ∧ Int.fmod n m < m ∧
      compute_group_sizes n m =
        .ok (List.replicate fr.toNat (m + e + 1) ++
              List.replicate (q.toNat - fr.toNat) (m + e)) ∧
      (List.replicate fr.toNat (m + e + 1) ++
        List.replicate (q.toNat - fr.toNat) (m + e)).sum = n := by
  have hm0 : 0 < m := by omega
  have hmne : m ≠ 0 := by omega
  set q : Int := Int.fdiv n m with hq
  set r : Int := Int.fmod n m with hr
  have hid : m * q + r = n := Int.fdiv_add_fmod n m
  have hr0 : 0 ≤ r := Int.fmod_nonneg' n hm0
  have hrm : r < m := Int.fmod_lt_of_pos n hm0
  have hq1 : 1 ≤ q := by
    rw [hq, Int.fdiv_eq_ediv n (le_of_lt hm0)]
    exact (Int.le_ediv_iff_mul_le hm0).mpr (by omega)
  have hqpos : 0 < q := by omega
  set e : Int := Int.fdiv r q with he
  set fr : Int := r - q * e with hfr
  have he0 : 0 ≤ e := Int.fdiv_nonneg hr0 (le_of_lt hqpos)
  have hfr_eq : fr = Int.fmod r q := by
    rw [hfr, Int.fmod_def, he]
  have hfr0 : 0 ≤ fr := hfr_eq ▸ Int.fmod_nonneg' r hqpos
  have hfrq : fr < q := hfr_eq ▸ Int.fmod_lt_of_pos r hqpos
  have hsum2 : (List.replicate fr.toNat (m + e + 1) ++
      List.replicate (q.toNat - fr.toNat) (m + e)).sum = n := by
    rw [List.sum_append, List.sum_replicate, List.sum_replicate, nsmul_eq_mul, nsmul_eq_mul]
    have h1 : (fr.toNat : Int) = fr := Int.toNat_of_nonneg hfr0
    have h2 : ((q.toNat - fr.toNat : Nat) : Int) = q - fr := by omega
    have h3 : fr * (m + e + 1) + (q - fr) * (m + e) = m * q + (q * e + fr) := by ring
    rw [h1, h2, h3]; omega
  refine ⟨q, e, fr, hqpos, he0, hfr0, hfrq, by omega, hid, hr0, hrm, ?_, hsum2⟩
  -- now evaluate the function along its branches
  unfold compute_group_sizes
  simp only [if_neg hmne]
  rw [← hq, ← hr, ← he]
  rw [if_neg (by omega : ¬ (q < 0)), if_neg (by omega : ¬ (q = 0))]
  have hexp : q * (m + e) = m * q + q * e := by ring
  have hsum1 : (List.map (· + e) (List.replicate q.toNat m)).sum = q * (m + e) := by
    rw [List.map_replicate, List.sum_replicate, nsmul_eq_mul,
        Int.toNat_of_nonneg (le_of_lt hqpos)]
  have hassert1 : r - q * e = n - (List.map (· + e) (List.replicate q.toNat m)).sum := by
    rw [hsum1]; omega
  rw [← hfr] at hassert1
  rw [if_neg (by exact fun h => h hassert1)]
  rw [if_neg (by rw [← hfr]; exact fun h => h hfrq)]
  have hlen : fr ≤ (q.toNat : Int) := by rw [Int.toNat_of_nonneg (le_of_lt hqpos)]; omega
  have hform : addOneToPrefix (List.map (· + e) (List.replicate q.toNat m)) (r - q * e) =
      List.replicate fr.toNat (m + e + 1) ++ List.replicate (q.toNat - fr.toNat) (m + e) := by
    rw [List.map_replicate, ← hfr]
    exact addOneToPrefix_replicate q.toNat (m + e) fr hfr0 (by simpa using hlen)
  rw [hform]
  rw [if_neg (by exact fun h => h hsum2)]
  have hall : (List.replicate fr.toNat (m + e + 1) ++
      List.replicate (q.toNat - fr.toNat) (m + e)).all (fun s => decide (m ≤ s)) = true := by
    rw [List.all_eq_true]
    intro s hs
    rcases List.mem_append.mp hs with h | h
    · have := List.eq_of_mem_replicate h; subst this; simp; omega
    · have := List.eq_of_mem_replicate h; subst this; simp; omega
  rw [if_neg (by exact fun h => h hall)]

/-- C1: for all integers `total_items ≥ min_group_size ≥ 1`,
`compute_group_sizes` returns group sizes summing to `total_items`, all
at least `min_group_size`, with max and min size differing by at most 1. -/
theorem C1_compute_group_sizes_postconditions (n m : Int) (hm : 1 ≤ m) (hmn : m ≤ n) :
    ∃ gs : List Int, compute_group_sizes n m = .ok gs ∧
      gs.sum = n ∧ (∀ s ∈ gs, m ≤ s) ∧ ∀ a ∈ gs, ∀ b ∈ gs, a - b ≤ 1 := by
  obtain ⟨q, e, fr, hq, he, hfr0, hfrq, hrsplit, hid, hr0, hrm, heq, hsum⟩ :=
    compute_group_sizes_spec n m hm hmn
  refine ⟨_, heq, hsum, ?_, ?_⟩
  · intro s hs
    rcases List.mem_append.mp hs with h | h
    · have := List.eq_of_mem_replicate h; omega
    · have := List.eq_of_mem_replicate h; omega
  · intro a ha b hb
    have hav : a = m + e + 1 ∨ a = m + e := by
      rcases List.mem_append.mp ha with h | h
      · exact Or.inl (List.eq_of_mem_replicate h)
      · exact Or.inr (List.eq_of_mem_replicate h)
    have hbv : b = m + e + 1 ∨ b = m + e := by
      rcases List.mem_append.mp hb with h | h
      · exact Or.inl (List.eq_of_mem_replicate h)
      · exact Or.inr (List.eq_of_mem_replicate h)
    rcases hav with h1 | h1 <;> rcases hbv with h2 | h2 <;> omega

/-- Witness for C1 at the concrete input `(44, 5)`. -/
theorem C1_compute_group_sizes_postconditions_witness :
    (1 : Int) ≤ 5 ∧ (5 : Int) ≤ 44 ∧
    ∃ gs : List Int, compute_group_sizes 44 5 = .ok gs ∧
      gs.sum = 44 ∧ (∀ s ∈ gs, 5 ≤ s) ∧ ∀ a ∈ gs, ∀ b ∈ gs, a - b ≤ 1 :=
  ⟨by norm_num, by norm_num,
    C1_compute_group_sizes_postconditions 44 5 (by norm_num) (by norm_num)⟩

/-- C10: for all integers `num_mice ≥ min_group_size ≥ 1`, every group size
returned by `compute_group_sizes` is at most `2 * min_group_size - 1`, and
the returned sequence is non-increasing. -/
theorem C10_compute_group_sizes_bound_and_sorted (n m : Int) (hm : 1 ≤ m) (hmn : m ≤ n) :
    ∃ gs : List Int, compute_group_sizes n m = .ok gs ∧
      (∀ s ∈ gs, s ≤ 2 * m - 1) ∧ List.Pairwise (fun a b => b ≤ a) gs := by
  obtain ⟨q, e, fr, hq, he, hfr0, hfrq, hrsplit, hid, hr0, hrm, heq, hsum⟩ :=
    compute_group_sizes_spec n m hm hmn
  have heq' : e ≤ q * e := le_mul_of_one_le_left he (by omega)
  refine ⟨_, heq, ?_, ?_⟩
  · intro s hs
    rcases List.mem_append.mp hs with h | h
    · obtain ⟨hne, hv⟩ := List.mem_replicate.mp h
      have hfr1 : 1 ≤ fr := by omega
      omega
    · have := List.eq_of_mem_replicate h
      omega
  · rw [List.pairwise_append]
    refine ⟨List.pairwise_replicate.mpr (Or.inr le_rfl),
            List.pairwise_replicate.mpr (Or.inr le_rfl), ?_⟩
    intro a ha b hb
    have h1 := List.eq_of_mem_replicate ha
    have h2 := List.eq_of_mem_replicate hb
    omega

/-- Witness for C10 at the concrete input `(44, 5)`. -/
theorem C10_compute_group_sizes_bound_and_sorted_witness :
    (1 : Int) ≤ 5 ∧ (5 : Int) ≤ 44 ∧
    ∃ gs : List Int, compute_group_sizes 44 5 = .ok gs ∧
      (∀ s ∈ gs, s ≤ 2 * 5 - 1) ∧ List.Pairwise (fun a b => b ≤ a) gs :=
  ⟨by norm_num, by norm_num,
    C10_compute_group_sizes_bound_and_sorted 44 5 (by norm_num) (by norm_num)⟩

/-- C8: the planner's outputs on the three concrete inputs from the spec:
`compute_group_sizes 44 5 = [6,6,6,6,5,5,5,5]`,
`compute_group_sizes 14 5 = [7,7]`, and
`compute_group_sizes 199 50 = [67,66,66]`. -/
theorem C8_compute_group_sizes_examples :
    compute_group_sizes 44 5 = .ok [6, 6, 6, 6, 5, 5, 5, 5] ∧
    compute_group_sizes 14 5 = .ok [7, 7] ∧
    compute_group_sizes 199 50 = .ok [67, 66, 66] :=
  ⟨rfl, rfl, rfl⟩

/-- C5, counterexample: at `num_mice = -4`, `min_group_size = -2` we have
`min_group_size < 1` and `num_mice < min_group_size`, yet
`compute_group_sizes` raises nothing and returns `[-2, -2]`. -/
theorem C5_counterexample_negative_sizes_accepted :
    (-4 : Int) < (-2 : Int) ∧ (-2 : Int) < (1 : Int) ∧
    compute_group_sizes (-4) (-2) = .ok [-2, -2] :=
  ⟨by norm_num, by norm_num, rfl⟩

/-- C5 (amended): for every `min_group_size ≥ 0` with `min_group_size < 1`
or `total_items < min_group_size`, `compute_group_sizes` fails — though
with a `ValueError`/`OverflowError` arising from the degenerate numpy
division, not a dedicated configuration error. -/
theorem C5_amended_invalid_inputs_error (n m : Int) (hm : 0 ≤ m) (h : m < 1 ∨ n < m) :
    ∃ err : PyError, compute_group_sizes n m = .error err := by
  by_cases hm0 : m = 0
  · subst hm0
    exact ⟨.valueError "cannot convert float NaN to integer", rfl⟩
  · have hm1 : 1 ≤ m := by omega
    have hnm : n < m := by
      rcases h with h | h
      · omega
      · exact h
    by_cases hn : n < 0
    · have hq : Int.fdiv n m < 0 := by
        rw [Int.fdiv_eq_ediv n (by omega)]
        exact Int.ediv_neg' hn (by omega)
      refine ⟨.valueError "negative dimensions are not allowed", ?_⟩
      unfold compute_group_sizes
      simp only [if_neg hm0]
      rw [if_pos hq]
    · push_neg at hn
      have hq0 : Int.fdiv n m = 0 := by
        rw [Int.fdiv_eq_ediv n (by omega)]
        exact Int.ediv_eq_zero_of_lt hn hnm
      have hr : Int.fmod n m = n := Int.fmod_eq_of_lt hn hnm
      by_cases hn0 : n = 0
      · refine ⟨.valueError "cannot convert float NaN to integer", ?_⟩
        unfold compute_group_sizes
        simp only [if_neg hm0, hq0, hr]
        simp [hn0]
      · refine ⟨.overflowError "cannot convert float infinity to integer", ?_⟩
        unfold compute_group_sizes
        simp only [if_neg hm0, hq0, hr]
        simp [hn0]

/-- Witness for the amended C5 at the concrete input `(3, 5)`. -/
theorem C5_amended_invalid_inputs_error_witness :
    (0 : Int) ≤ 5 ∧ ((5 : Int) < 1 ∨ (3 : Int) < 5) ∧
    ∃ err : PyError, compute_group_sizes 3 5 = .error err :=
  ⟨by norm_num, Or.inr (by norm_num),
    C5_amended_invalid_inputs_error 3 5 (by norm_num) (Or.inr (by norm_num))⟩

end GroupSizePlanner

/-! ## Input loader: `load_and_verify_mouse_id_and_tumor_size_data_frame`
(mouse_grouping_utils.py)

The file-system and column-name checks are I/O-level; the data-level
validation acts on the loaded table, modelled as an ordered list of
(mouse id, tumor size) rows with no missing values (the `isna` checks of
the source are vacuous in this total data model). -/

/-- One row of the loaded table. -/
structure MouseRow where
  mouse_id : Int
  tumor_size : Rat
deriving DecidableEq, Repr

/-- Embedding of the data-level validation of
`load_and_verify_mouse_id_and_tumor_size_data_frame`: the source compares
`len(df[orig_tumor_size_column_name].unique())` with
`len(df[orig_tumor_size_column_name])` — i.e. it tests uniqueness of the
*tumor size* column — and then checks all tumor sizes are non-negative. -/
def load_and_verify_mouse_id_and_tumor_size_data_frame (rows : List MouseRow) :
    Except PyError (List MouseRow) :=
  if (rows.map (fun r => r.tumor_size)).dedup.length ≠ rows.length then
    .error (.valueError "Not all Mouse IDs in the input Excel file are unique! Please fix.")
  else if ¬ (rows.all fun r => 0 ≤ r.tumor_size) then
    .error (.valueError "All tumor sizes must be non-negative. Please fix.")
  else
    .ok rows

/-- C9: the loader accepts a table whose mouse ids are duplicated, as long
as the tumor sizes are distinct — the uniqueness check reads the tumor-size
column instead of the id column, contradicting its own comment and error
message ("Not all Mouse IDs ... are unique"). -/
theorem C9_duplicate_mouse_ids_accepted :
    load_and_verify_mouse_id_and_tumor_size_data_frame
        [⟨1, 2⟩, ⟨1, 3⟩] = .ok [⟨1, 2⟩, ⟨1, 3⟩] ∧
    ¬ (List.map (fun r => r.mouse_id) [(⟨1, 2⟩ : MouseRow), ⟨1, 3⟩]).Nodup := by
  constructor
  · rfl
  · decide

/-! ## MILP Model Builder: `construct_mouse_grouping_model`
(mouse_grouping_mip.py)

The `mip` library objects are embedded symbolically: a model is a list of
variable declarations, a list of linear constraints `lhs == rhs` between
linear expressions in the declared variables, and a linear objective,
with sense `MINIMIZE`. -/

/-- The decision variables of the grouping model: `x_{i}_{j}`,
`y_pos_{j}` and `y_neg_{j}`. -/
inductive MVar where
  | x (i j : Nat)
  | ypos (j : Nat)
  | yneg (j : Nat)
deriving DecidableEq, Repr

/-- `mip` variable types used by the builder. -/
inductive VarType where
  | binary
  | continuous
deriving DecidableEq, Repr

/-- A variable declaration (`model.add_var`), with its type and lower
bound (`mip.BINARY` variables have bounds 0..1; the continuous proxy
variables are declared with `lb=0`). -/
structure VarDecl where
  var : MVar
  vtype : VarType
  lb : Rat
deriving DecidableEq, Repr

/-- One linear term `coeff * var`. -/
structure LinTerm where
  coeff : Rat
  var : MVar
deriving DecidableEq, Repr

/-- A linear expression: a list of terms plus a constant. -/
structure LinExpr where
  terms : List LinTerm
  const : Rat
deriving DecidableEq, Repr

/-- A named equality constraint `lhs == rhs` added via `model += ...`. -/
structure Constr where
  lhs : LinExpr
  rhs : LinExpr
  name : String
deriving DecidableEq, Repr

/-- Optimization sense of the model. -/
inductive Sense where
  | minimize
  | maximize
deriving DecidableEq, Repr

/-- The symbolic MILP model produced by the builder. -/
structure MipModel where
  name : String
  sense : Sense
  vars : List VarDecl
  constrs : List Constr
  objective : LinExpr
deriving DecidableEq, Repr

/-- Value of a linear expression under an assignment of the variables. -/
def evalExpr (σ : MVar → Rat) (e : LinExpr) : Rat :=
  (e.terms.map fun t => t.coeff * σ t.var).sum + e.const

/-- A constraint is satisfied by an assignment when both sides agree. -/
def constrHolds (σ : MVar → Rat) (c : Constr) : Prop :=
  evalExpr σ c.lhs = evalExpr σ c.rhs

/-- Embedding of `construct_mouse_grouping_model(tumor_sizes, group_sizes)`.

The input verification is translated with the operator precedence of the
Python source: `if not len(tumor_sizes) >= 3 and np.all(...)` parses as
`(not (len(tumor_sizes) >= 3)) and np.all(...)`, and similarly for the
group-size check; only the length/sum comparison is unconditional. -/
def construct_mouse_grouping_model (tumor_sizes : List Rat) (group_sizes : List Int) :
    Except PyError MipModel :=
  if (¬ tumor_sizes.length ≥ 3) ∧ tumor_sizes.all (fun v => 0 ≤ v) then
    .error (.attributeError
      "There must be at least three tumor sizes and they must all be non-negative.")
  else if (¬ group_sizes.length ≥ 2) ∧ group_sizes.all (fun g => 0 < g) then
    .error (.attributeError
      "There must be at least two groups and none of them can be empty.")
  else if (tumor_sizes.length : Int) ≠ group_sizes.sum then
    .error (.valueError
      "Lenght of tumor_sizes list must equal the sum of the number of mice in the groups.")
  else
    let num_mice := tumor_sizes.length
    let num_groups := group_sizes.length
    let mean := tumor_sizes.sum / (num_mice : Rat)
    let d := tumor_sizes.map (fun v => v - mean)
    let xDecls := (List.range num_mice).flatMap fun i =>
      (List.range num_groups).map fun j => VarDecl.mk (MVar.x i j) VarType.binary 0
    let yposDecls := (List.range num_groups).map fun j =>
      VarDecl.mk (MVar.ypos j) VarType.continuous 0
    let ynegDecls := (List.range num_groups).map fun j =>
      VarDecl.mk (MVar.yneg j) VarType.continuous 0
    let constrA := (List.range num_groups).map fun j =>
      Constr.mk ⟨(List.range num_mice).map fun i => ⟨1, MVar.x i j⟩, 0⟩
        ⟨[], ((group_sizes.getD j 0 : Int) : Rat)⟩
        ("Mice_in_group_" ++ toString j)
    let constrB := (List.range num_mice).map fun i =>
      Constr.mk ⟨(List.range num_groups).map fun j => ⟨1, MVar.x i j⟩, 0⟩
        ⟨[], 1⟩
        ("Mouse_" ++ toString i ++ "_in_one_group")
    let constrC := (List.range num_groups).map fun j =>
      Constr.mk ⟨(List.range num_mice).map fun i => ⟨d.getD i 0, MVar.x i j⟩, 0⟩
        ⟨[⟨1, MVar.ypos j⟩, ⟨-1, MVar.yneg j⟩], 0⟩
        ("Mean_tumor_diff_in_group_" ++ toString j)
    let objective := LinExpr.mk
      ((List.range num_groups).flatMap fun j => [⟨1, MVar.ypos j⟩, ⟨1, MVar.yneg j⟩]) 0
    .ok (MipModel.mk "mouse_grouping" Sense.minimize
      (xDecls ++ yposDecls ++ ynegDecls) (constrA ++ constrB ++ constrC) objective)

/-- Sum of a flattened list, blockwise. -/
lemma sum_flatMap_eq {α : Type} (l : List α) (f : α → List Rat) :
    (l.flatMap f).sum = (l.map fun a => (f a).sum).sum := by
  induction l with
  | nil => simp
  | cons a l ih => simp [List.flatMap_cons, List.sum_append, ih]

/-- Summing an indicator function over `List.range n` gives 1 when the
distinguished index is in range. -/
lemma sum_indicator_range (n i : Nat) (h : i < n) (g : Nat → Nat)
    (hg : ∀ i', g i' = if i' = i then 1 else 0) :
    ((List.range n).map g).sum = 1 := by
  induction n with
  | zero => omega
  | succ n ih =>
    rw [List.range_succ, List.map_append, List.sum_append]
    by_cases hi : i = n
    · have hz : ((List.range n).map g).sum = 0 := by
        rw [List.sum_eq_zero]
        intro x hx
        obtain ⟨i', hi', rfl⟩ := List.mem_map.mp hx
        rw [hg i', if_neg (by have := List.mem_range.mp hi'; omega)]
      simp [hz, hg n, hi]
    · have h1 : ((List.range n).map g).sum = 1 := ih (by omega)
      simp [h1, hg n, hi]
      omega

/-- C6: the builder's precondition checks are mis-parenthesised
(`if not len(...) >= 3 and np.all(...)`), so an input with only two tumor
sizes, one of them negative, passes all three checks and a full model with
decision variables is constructed. -/
theorem C6_invalid_builder_input_accepted :
    (([-1, 2] : List Rat).length < 3 ∧ (-1 : Rat) ∈ ([-1, 2] : List Rat) ∧ (-1 : Rat) < 0) ∧
    ∃ mdl : MipModel, construct_mouse_grouping_model [-1, 2] [1, 1] = .ok mdl ∧
      mdl.vars.length = 8 :=
  ⟨by norm_num, ⟨_, rfl, by decide⟩⟩

/-- C2: on every valid input (at least 3 non-negative values, at least 2
positive group sizes summing to the value count) the builder returns a
minimization model with exactly one binary `x i j` per item-group pair,
one pair of non-negative continuous proxies per group, constraint sets A
(group cardinality), B (single assignment) and C (deviation linking with
`d i = values[i] - mean`), and the objective `sum_j (pos_j + neg_j)`. -/
theorem C2_model_builder_structure (values : List Rat) (gs : List Int)
    (h1 : 3 ≤ values.length) (h2 : ∀ v ∈ values, 0 ≤ v)
    (h3 : 2 ≤ gs.length) (h4 : ∀ g ∈ gs, 0 < g)
    (h5 : (values.length : Int) = gs.sum) :
    ∃ mdl : MipModel, construct_mouse_grouping_model values gs = .ok mdl ∧
      mdl.sense = Sense.minimize ∧
      mdl.vars.length = values.length * gs.length + gs.length + gs.length ∧
      (∀ i < values.length, ∀ j < gs.length,
        mdl.vars.count (VarDecl.mk (MVar.x i j) VarType.binary 0) = 1) ∧
      (∀ j < gs.length,
        mdl.vars.count (VarDecl.mk (MVar.ypos j) VarType.continuous 0) = 1 ∧
        mdl.vars.count (VarDecl.mk (MVar.yneg j) VarType.continuous 0) = 1) ∧
      mdl.constrs.length = gs.length + values.length + gs.length ∧
      (∀ j < gs.length, ∃ c ∈ mdl.constrs, ∀ σ : MVar → Rat,
        constrHolds σ c ↔
          ((List.range values.length).map fun i => σ (MVar.x i j)).sum
            = ((gs.getD j 0 : Int) : Rat)) ∧
      (∀ i < values.length, ∃ c ∈ mdl.constrs, ∀ σ : MVar → Rat,
        constrHolds σ c ↔
          ((List.range gs.length).map fun j => σ (MVar.x i j)).sum = 1) ∧
      (∀ j < gs.length, ∃ c ∈ mdl.constrs, ∀ σ : MVar → Rat,
        constrHolds σ c ↔
          ((List.range values.length).map fun i =>
              (values.getD i 0 - values.sum / (values.length : Rat)) * σ (MVar.x i j)).sum
            = σ (MVar.ypos j) - σ (MVar.yneg j)) ∧
      (∀ σ : MVar → Rat, evalExpr σ mdl.objective =
        ((List.range gs.length).map fun j => σ (MVar.ypos j) + σ (MVar.yneg j)).sum) := by
  have hc1 : ¬ ((¬ values.length ≥ 3) ∧ (values.all (fun v => 0 ≤ v) : Prop)) :=
    fun h => h.1 h1
  have hc2 : ¬ ((¬ gs.length ≥ 2) ∧ (gs.all (fun g => 0 < g) : Prop)) :=
    fun h => h.1 h3
  have hc3 : ¬ ((values.length : Int) ≠ gs.sum) := fun h => h h5
  have hok : construct_mouse_grouping_model values gs = .ok (MipModel.mk "mouse_grouping"
      Sense.minimize
      (((List.range values.length).flatMap fun i => (List.range gs.length).map fun j =>
          VarDecl.mk (MVar.x i j) VarType.binary 0) ++
        ((List.range gs.length).map fun j => VarDecl.mk (MVar.ypos j) VarType.continuous 0) ++
        ((List.range gs.length).map fun j => VarDecl.mk (MVar.yneg j) VarType.continuous 0))
      (((List.range gs.length).map fun j =>
          Constr.mk ⟨(List.range values.length).map fun i => ⟨1, MVar.x i j⟩, 0⟩
            ⟨[], ((gs.getD j 0 : Int) : Rat)⟩ ("Mice_in_group_" ++ toString j)) ++
        ((List.range values.length).map fun i =>
          Constr.mk ⟨(List.range gs.length).map fun j => ⟨1, MVar.x i j⟩, 0⟩
            ⟨[], 1⟩ ("Mouse_" ++ toString i ++ "_in_one_group")) ++
        ((List.range gs.length).map fun j =>
          Constr.mk ⟨(List.range values.length).map fun i =>
              ⟨(values.map fun v => v - values.sum / (values.length : Rat)).getD i 0,
                MVar.x i j⟩, 0⟩
            ⟨[⟨1, MVar.ypos j⟩, ⟨-1, MVar.yneg j⟩], 0⟩
            ("Mean_tumor_diff_in_group_" ++ toString j)))
      (LinExpr.mk ((List.range gs.length).flatMap fun j =>
          [⟨1, MVar.ypos j⟩, ⟨1, MVar.yneg j⟩]) 0)) := by
    unfold construct_mouse_grouping_model
    rw [if_neg hc1, if_neg hc2, if_neg hc3]
  refine ⟨_, hok, rfl, ?_, ?_, ?_, ?_, ?_, ?_, ?_, ?_⟩
  · -- total number of declared variables
    show (_ ++ _ ++ _ : List VarDecl).length = _
    rw [List.length_append, List.length_append, List.length_flatMap]
    simp only [Function.comp_def, List.length_map, List.length_range]
    rw [List.map_const', List.sum_replicate, smul_eq_mul, List.length_range]
  · -- one binary x i j per pair
    intro i hi j hj
    show ((_ ++ _ ++ _ : List VarDecl).count _) = 1
    rw [List.count_append, List.count_append]
    have hy : (((List.range gs.length).map fun j' =>
        VarDecl.mk (MVar.ypos j') VarType.continuous 0).count
          (VarDecl.mk (MVar.x i j) VarType.binary 0)) = 0 := by
      rw [List.count_eq_zero]
      intro hmem
      obtain ⟨j', _, heq⟩ := List.mem_map.mp hmem
      simp at heq
    have hz : (((List.range gs.length).map fun j' =>
        VarDecl.mk (MVar.yneg j') VarType.continuous 0).count
          (VarDecl.mk (MVar.x i j) VarType.binary 0)) = 0 := by
      rw [List.count_eq_zero]
      intro hmem
      obtain ⟨j', _, heq⟩ := List.mem_map.mp hmem
      simp at heq
    have hx : (((List.range values.length).flatMap fun i' =>
        (List.range gs.length).map fun j' =>
          VarDecl.mk (MVar.x i' j') VarType.binary 0).count
            (VarDecl.mk (MVar.x i j) VarType.binary 0)) = 1 := by
      rw [List.count_flatMap]
      refine sum_indicator_range values.length i hi _ ?_
      intro i'
      simp only [Function.comp_def]
      by_cases hii : i' = i
      · subst hii
        rw [if_pos rfl]
        have hinj : Function.Injective
            (fun j' => VarDecl.mk (MVar.x i' j') VarType.binary 0) := by
          intro a b hab
          simpa using hab
        rw [List.count_map_of_injective _ _ hinj]
        exact List.count_eq_one_of_mem (List.nodup_range _) (List.mem_range.mpr hj)
      · rw [if_neg hii, List.count_eq_zero]
        intro hmem
        obtain ⟨j', _, heq⟩ := List.mem_map.mp hmem
        simp at heq
        exact hii heq.1
    rw [hx, hy, hz]
  · -- one ypos / yneg pair per group
    intro j hj
    constructor
    · show ((_ ++ _ ++ _ : List VarDecl).count _) = 1
      rw [List.count_append, List.count_append]
      have hx : (((List.range values.length).flatMap fun i' =>
          (List.range gs.length).map fun j' =>
            VarDecl.mk (MVar.x i' j') VarType.binary 0).count
              (VarDecl.mk (MVar.ypos j) VarType.continuous 0)) = 0 := by
        rw [List.count_eq_zero]
        intro hmem
        obtain ⟨i', _, hmem'⟩ := List.mem_flatMap.mp hmem
        obtain ⟨j', _, heq⟩ := List.mem_map.mp hmem'
        simp at heq
      have hy : (((List.range gs.length).map fun j' =>
          VarDecl.mk (MVar.ypos j') VarType.continuous 0).count
            (VarDecl.mk (MVar.ypos j) VarType.continuous 0)) = 1 := by
        have hinj : Function.Injective
            (fun j' => VarDecl.mk (MVar.ypos j') VarType.continuous 0) := by
          intro a b hab
          simpa using hab
        rw [List.count_map_of_injective _ _ hinj]
        exact List.count_eq_one_of_mem (List.nodup_range _) (List.mem_range.mpr hj)
      have hz : (((List.range gs.length).map fun j' =>
          VarDecl.mk (MVar.yneg j') VarType.continuous 0).count
            (VarDecl.mk (MVar.ypos j) VarType.continuous 0)) = 0 := by
        rw [List.count_eq_zero]
        intro hmem
        obtain ⟨j', _, heq⟩ := List.mem_map.mp hmem
        simp at heq
      rw [hx, hy, hz]
    · show ((_ ++ _ ++ _ : List VarDecl).count _) = 1
      rw [List.count_append, List.count_append]
      have hx : (((List.range values.length).flatMap fun i' =>
          (List.range gs.length).map fun j' =>
            VarDecl.mk (MVar.x i' j') VarType.binary 0).count
              (VarDecl.mk (MVar.yneg j) VarType.continuous 0)) = 0 := by
        rw [List.count_eq_zero]
        intro hmem
        obtain ⟨i', _, hmem'⟩ := List.mem_flatMap.mp hmem
        obtain ⟨j', _, heq⟩ := List.mem_map.mp hmem'
        simp at heq
      have hy : (((List.range gs.length).map fun j' =>
          VarDecl.mk (MVar.ypos j') VarType.continuous 0).count
            (VarDecl.mk (MVar.yneg j) VarType.continuous 0)) = 0 := by
        rw [List.count_eq_zero]
        intro hmem
        obtain ⟨j', _, heq⟩ := List.mem_map.mp hmem
        simp at heq
      have hz : (((List.range gs.length).map fun j' =>
          VarDecl.mk (MVar.yneg j') VarType.continuous 0).count
            (VarDecl.mk (MVar.yneg j) VarType.continuous 0)) = 1 := by
        have hinj : Function.Injective
            (fun j' => VarDecl.mk (MVar.yneg j') VarType.continuous 0) := by
          intro a b hab
          simpa using hab
        rw [List.count_map_of_injective _ _ hinj]
        exact List.count_eq_one_of_mem (List.nodup_range _) (List.mem_range.mpr hj)
      rw [hx, hy, hz]
  · -- total number of constraints
    show (_ ++ _ ++ _ : List Constr).length = _
    simp [List.length_append, List.length_map, List.length_range]
    omega
  · -- constraint set A
    intro j hj
    refine ⟨_, List.mem_append.mpr (Or.inl (List.mem_append.mpr (Or.inl
      (List.mem_map.mpr ⟨j, List.mem_range.mpr hj, rfl⟩)))), ?_⟩
    intro σ
    simp only [constrHolds, evalExpr, List.map_map, Function.comp_def, one_mul,
      List.map_nil, List.sum_nil, add_zero, zero_add]
  · -- constraint set B
    intro i hi
    refine ⟨_, List.mem_append.mpr (Or.inl (List.mem_append.mpr (Or.inr
      (List.mem_map.mpr ⟨i, List.mem_range.mpr hi, rfl⟩)))), ?_⟩
    intro σ
    simp only [constrHolds, evalExpr, List.map_map, Function.comp_def, one_mul,
      List.map_nil, List.sum_nil, add_zero, zero_add]
  · -- constraint set C
    intro j hj
    refine ⟨_, List.mem_append.mpr (Or.inr
      (List.mem_map.mpr ⟨j, List.mem_range.mpr hj, rfl⟩)), ?_⟩
    intro σ
    have hd : ((List.range values.length).map fun i =>
        ((values.map fun v => v - values.sum / (values.length : Rat)).getD i 0)
          * σ (MVar.x i j)) =
        (List.range values.length).map fun i =>
          (values.getD i 0 - values.sum / (values.length : Rat)) * σ (MVar.x i j) := by
      refine List.map_congr_left ?_
      intro i hi
      have hi' : i < values.length := List.mem_range.mp hi
      rw [List.getD_eq_getElem?_getD, List.getElem?_map, List.getElem?_eq_getElem hi']
      rw [List.getD_eq_getElem?_getD, List.getElem?_eq_getElem hi']
      rfl
    simp only [constrHolds, evalExpr, List.map_map, Function.comp_def]
    rw [hd]
    constructor
    · intro h
      simp only [List.map_cons, List.map_nil, List.sum_cons, List.sum_nil] at h
      linarith
    · intro h
      simp only [List.map_cons, List.map_nil, List.sum_cons, List.sum_nil]
      linarith
  · -- objective
    intro σ
    show evalExpr σ (LinExpr.mk _ 0) = _
    simp only [evalExpr, List.map_flatMap, List.map_cons, List.map_nil]
    rw [sum_flatMap_eq]
    simp [one_mul]

/-- Witness for C2 at the concrete input `values = [1,2,3]`,
`group_sizes = [2,1]`. -/
theorem C2_model_builder_structure_witness :
    3 ≤ ([1, 2, 3] : List Rat).length ∧
    (∀ v ∈ ([1, 2, 3] : List Rat), 0 ≤ v) ∧
    2 ≤ ([2, 1] : List Int).length ∧
    (∀ g ∈ ([2, 1] : List Int), 0 < g) ∧
    ((([1, 2, 3] : List Rat).length : Int) = ([2, 1] : List Int).sum) ∧
    (∃ mdl : MipModel, construct_mouse_grouping_model [1, 2, 3] [2, 1] = .ok mdl ∧
      mdl.sense = Sense.minimize ∧
      mdl.vars.length = ([1, 2, 3] : List Rat).length * ([2, 1] : List Int).length +
        ([2, 1] : List Int).length + ([2, 1] : List Int).length ∧
      (∀ i < ([1, 2, 3] : List Rat).length, ∀ j < ([2, 1] : List Int).length,
        mdl.vars.count (VarDecl.mk (MVar.x i j) VarType.binary 0) = 1) ∧
      (∀ j < ([2, 1] : List Int).length,
        mdl.vars.count (VarDecl.mk (MVar.ypos j) VarType.continuous 0) = 1 ∧
        mdl.vars.count (VarDecl.mk (MVar.yneg j) VarType.continuous 0) = 1) ∧
      mdl.constrs.length = ([2, 1] : List Int).length + ([1, 2, 3] : List Rat).length +
        ([2, 1] : List Int).length ∧
      (∀ j < ([2, 1] : List Int).length, ∃ c ∈ mdl.constrs, ∀ σ : MVar → Rat,
        constrHolds σ c ↔
          ((List.range ([1, 2, 3] : List Rat).length).map fun i => σ (MVar.x i j)).sum
            = ((([2, 1] : List Int).getD j 0 : Int) : Rat)) ∧
      (∀ i < ([1, 2, 3] : List Rat).length, ∃ c ∈ mdl.constrs, ∀ σ : MVar → Rat,
        constrHolds σ c ↔
          ((List.range ([2, 1] : List Int).length).map fun j => σ (MVar.x i j)).sum = 1) ∧
      (∀ j < ([2, 1] : List Int).length, ∃ c ∈ mdl.constrs, ∀ σ : MVar → Rat,
        constrHolds σ c ↔
          ((List.range ([1, 2, 3] : List Rat).length).map fun i =>
              (([1, 2, 3] : List Rat).getD i 0 -
                ([1, 2, 3] : List Rat).sum / ((([1, 2, 3] : List Rat).length : Nat) : Rat))
                * σ (MVar.x i j)).sum
            = σ (MVar.ypos j) - σ (MVar.yneg j)) ∧
      (∀ σ : MVar → Rat, evalExpr σ mdl.objective =
        ((List.range ([2, 1] : List Int).length).map fun j =>
          σ (MVar.ypos j) + σ (MVar.yneg j)).sum)) :=
  ⟨by norm_num, by norm_num, by norm_num, by decide, by norm_num,
    C2_model_builder_structure [1, 2, 3] [2, 1]
      (by norm_num) (by norm_num) (by norm_num) (by decide) (by norm_num)⟩

/-! ## Solution extraction & validation (mouse_grouping_mip.py,
`construct_and_solve_mouse_grouping_model`, after `model.optimize`)

The solver (`python-mip` with CBC) is external. Its adapter contract
(spec §4.3) yields a termination status and, when an incumbent solution
exists (OPTIMAL / FEASIBLE), the values of all variables; otherwise the
variables' `.x` attributes are `None`, modelled by an absent
`SolverOutput`. The code after `model.optimize` never branches on the
status: the status check is commented out in the source. -/

/-- Termination statuses of the optimization engine
(`mip.OptimizationStatus`). -/
inductive Status where
  | OPTIMAL
  | ERROR
  | INFEASIBLE
  | UNBOUNDED
  | FEASIBLE
  | INT_INFEASIBLE
  | NO_SOLUTION_FOUND
deriving DecidableEq, Repr

/-- Raw variable values read back from the solver when a solution exists:
the matrix `x[i][j].x`, the proxy values `y_pos[j].x`, `y_neg[j].x`, and
`model.objective_value`. -/
structure SolverOutput where
  xvals : List (List Rat)
  yposvals : List Rat
  ynegvals : List Rat
  objective_value : Rat
deriving DecidableEq, Repr

/-- The validated result returned to the caller: the 1-based group label
per mouse, the objective value, and the per-group signed deviations. -/
structure GroupingResult where
  mouse_grouping : List Nat
  objective_value : Rat
  group_deviations : List Rat
deriving DecidableEq, Repr

/-- `np.isclose` with numpy's default tolerances:
`|a - b| <= atol + rtol * |b|` with `atol = 1e-8`, `rtol = 1e-5`. -/
def npIsClose (a b : Rat) : Bool :=
  |a - b| ≤ 1 / 100000000 + |b| / 100000

/-- `x_arr.sum(axis=0)[j]`: the sum of column `j`. -/
def colSum (x_arr : List (List Rat)) (j : Nat) : Rat :=
  (x_arr.map fun row => row.getD j 0).sum

/-- `np.where(x_arr)[1]`: the column indices of all nonzero entries, in
row-major order. -/
def npWhereCols (x_arr : List (List Rat)) : List Nat :=
  x_arr.flatMap fun row =>
    (List.range row.length).filter fun j => decide (row.getD j 0 ≠ 0)

/-- Embedding of the solution extraction and verification performed by
`construct_and_solve_mouse_grouping_model` after `model.optimize` returns:
build `x_arr`, verify row sums against 1 and column sums against
`group_sizes` with `np.isclose`, read the grouping off the nonzero
entries (`np.where(x_arr)[1]`, then `+= 1` for 1-based labels), compute
`group_deviations = y_pos - y_neg`, and verify `model.objective_value`
against the sum of absolute group deviations.

The `status` argument is accepted but never inspected, exactly as in the
source (its status check is a comment). When no solution exists the
variable values are `None` and the numpy summation over the resulting
object array raises a `TypeError`. -/
def extract_and_verify_solution (status : Status) (sol : Option SolverOutput)
    (group_sizes : List Int) : Except PyError GroupingResult :=
  match sol with
  | none =>
    .error (.typeError "unsupported operand type(s) for +: NoneType and NoneType")
  | some s =>
    if ¬ (s.xvals.all fun row => npIsClose row.sum 1) then
      .error (.valueError "The assignment matrix was invalid (axis=1). Please investigate.")
    else if ¬ ((List.range group_sizes.length).all fun j =>
        npIsClose (colSum s.xvals j) ((group_sizes.getD j 0 : Int) : Rat)) then
      .error (.valueError "The assignment matrix was invalid (axis=0). Please investigate.")
    else
      let mouse_grouping := (npWhereCols s.xvals).map (fun j => j + 1)
      let group_deviations := List.zipWith (fun a b => a - b) s.yposvals s.ynegvals
      if ¬ (npIsClose s.objective_value ((group_deviations.map (fun d => |d|)).sum)) then
        .error (.valueError
          "Objective value and sum of absolute group deviations differ. Please investigate.")
      else
        .ok (GroupingResult.mk mouse_grouping s.objective_value group_deviations)

/-- Unfolding equation for extraction on a present solution. -/
lemma extract_and_verify_solution_some (st : Status) (s : SolverOutput) (gs : List Int) :
    extract_and_verify_solution st (some s) gs =
      if ¬ (s.xvals.all fun row => npIsClose row.sum 1) then
        .error (.valueError "The assignment matrix was invalid (axis=1). Please investigate.")
      else if ¬ ((List.range gs.length).all fun j =>
          npIsClose (colSum s.xvals j) ((gs.getD j 0 : Int) : Rat)) then
        .error (.valueError "The assignment matrix was invalid (axis=0). Please investigate.")
      else if ¬ (npIsClose s.objective_value
          (((List.zipWith (fun a b => a - b) s.yposvals s.ynegvals).map
            (fun d => |d|)).sum)) then
        .error (.valueError
          "Objective value and sum of absolute group deviations differ. Please investigate.")
      else
        .ok (GroupingResult.mk ((npWhereCols s.xvals).map (fun j => j + 1))
          s.objective_value (List.zipWith (fun a b => a - b) s.yposvals s.ynegvals)) := rfl

/-- C3: whenever extraction returns a `GroupingResult` without raising,
every row of the assignment matrix sums to 1 within tolerance, every
column `j` sums to `group_sizes[j]` within tolerance, and the
solver-reported objective equals the recomputed sum of absolute group
deviations within tolerance; conversely a row-sum violation fails with the
"axis=1" `ValueError`, a column-sum violation (with row sums fine) fails
with the "axis=0" `ValueError`, and an objective mismatch (with both
structural checks fine) fails with the objective-mismatch `ValueError`. -/
theorem C3_extractor_validation :
    (∀ (st : Status) (s : SolverOutput) (gs : List Int) (r : GroupingResult),
      extract_and_verify_solution st (some s) gs = .ok r →
        (∀ row ∈ s.xvals, npIsClose row.sum 1) ∧
        (∀ j < gs.length, npIsClose (colSum s.xvals j) ((gs.getD j 0 : Int) : Rat)) ∧
        npIsClose r.objective_value
          (((List.zipWith (fun a b => a - b) s.yposvals s.ynegvals).map
            (fun d => |d|)).sum)) ∧
    (∀ (st : Status) (s : SolverOutput) (gs : List Int),
      ¬ (∀ row ∈ s.xvals, npIsClose row.sum 1) →
        extract_and_verify_solution st (some s) gs =
          .error (.valueError
            "The assignment matrix was invalid (axis=1). Please investigate.")) ∧
    (∀ (st : Status) (s : SolverOutput) (gs : List Int),
      (∀ row ∈ s.xvals, npIsClose row.sum 1) →
      ¬ (∀ j < gs.length, npIsClose (colSum s.xvals j) ((gs.getD j 0 : Int) : Rat)) →
        extract_and_verify_solution st (some s) gs =
          .error (.valueError
            "The assignment matrix was invalid (axis=0). Please investigate.")) ∧
    (∀ (st : Status) (s : SolverOutput) (gs : List Int),
      (∀ row ∈ s.xvals, npIsClose row.sum 1) →
      (∀ j < gs.length, npIsClose (colSum s.xvals j) ((gs.getD j 0 : Int) : Rat)) →
      ¬ npIsClose s.objective_value
          (((List.zipWith (fun a b => a - b) s.yposvals s.ynegvals).map
            (fun d => |d|)).sum) →
        extract_and_verify_solution st (some s) gs =
          .error (.valueError
            "Objective value and sum of absolute group deviations differ. Please investigate.")) := by
  have hrow_iff : ∀ s : SolverOutput,
      (s.xvals.all fun row => npIsClose row.sum 1) = true ↔
        ∀ row ∈ s.xvals, npIsClose row.sum 1 := by
    intro s
    simp [List.all_eq_true]
  have hcol_iff : ∀ (s : SolverOutput) (gs : List Int),
      ((List.range gs.length).all fun j =>
        npIsClose (colSum s.xvals j) ((gs.getD j 0 : Int) : Rat)) = true ↔
        ∀ j < gs.length, npIsClose (colSum s.xvals j) ((gs.getD j 0 : Int) : Rat) := by
    intro s gs
    simp [List.all_eq_true, List.mem_range]
  refine ⟨?_, ?_, ?_, ?_⟩
  · intro st s gs r h
    rw [extract_and_verify_solution_some] at h
    by_cases h1 : (s.xvals.all fun row => npIsClose row.sum 1) = true
    · rw [if_neg (not_not_intro h1)] at h
      by_cases h2 : ((List.range gs.length).all fun j =>
          npIsClose (colSum s.xvals j) ((gs.getD j 0 : Int) : Rat)) = true
      · rw [if_neg (not_not_intro h2)] at h
        by_cases h3 : npIsClose s.objective_value
            (((List.zipWith (fun a b => a - b) s.yposvals s.ynegvals).map
              (fun d => |d|)).sum) = true
        · rw [if_neg (not_not_intro h3)] at h
          refine ⟨(hrow_iff s).mp h1, (hcol_iff s gs).mp h2, ?_⟩
          obtain ⟨rfl⟩ := Except.ok.inj h
          exact h3
        · rw [if_pos h3] at h
          exact absurd h (by simp)
      · rw [if_pos h2] at h
        exact absurd h (by simp)
    · rw [if_pos h1] at h
      exact absurd h (by simp)
  · intro st s gs h
    rw [extract_and_verify_solution_some]
    rw [if_pos (fun hh => h ((hrow_iff s).mp hh))]
  · intro st s gs h1 h2
    rw [extract_and_verify_solution_some]
    rw [if_neg (not_not_intro ((hrow_iff s).mpr h1)),
        if_pos (fun hh => h2 ((hcol_iff s gs).mp hh))]
  · intro st s gs h1 h2 h3
    rw [extract_and_verify_solution_some]
    rw [if_neg (not_not_intro ((hrow_iff s).mpr h1)),
        if_neg (not_not_intro ((hcol_iff s gs).mpr h2)),
        if_pos h3]

/-- `np.isclose` always accepts exact equality. -/
lemma npIsClose_self (b : Rat) : npIsClose b b = true := by
  simp only [npIsClose, sub_self, abs_zero, decide_eq_true_eq]
  positivity

/-- Witness for C3 (first conjunct) at a concrete accepted solver output. -/
theorem C3_extractor_validation_witness :
    extract_and_verify_solution Status.OPTIMAL
        (some (SolverOutput.mk [[1, 0], [0, 1]] [0, 0] [0, 0] 0)) [1, 1] =
      .ok (GroupingResult.mk [1, 2] 0 [0, 0]) ∧
    ((∀ row ∈ (SolverOutput.mk [[1, 0], [0, 1]] [0, 0] [0, 0] 0).xvals,
        npIsClose row.sum 1) ∧
      (∀ j < ([1, 1] : List Int).length,
        npIsClose (colSum (SolverOutput.mk [[1, 0], [0, 1]] [0, 0] [0, 0] 0).xvals j)
          ((([1, 1] : List Int).getD j 0 : Int) : Rat)) ∧
      npIsClose (GroupingResult.mk [1, 2] 0 [0, 0]).objective_value
        (((List.zipWith (fun a b => a - b)
            (SolverOutput.mk [[1, 0], [0, 1]] [0, 0] [0, 0] 0).yposvals
            (SolverOutput.mk [[1, 0], [0, 1]] [0, 0] [0, 0] 0).ynegvals).map
          (fun d => |d|)).sum)) := by
  have hok : extract_and_verify_solution Status.OPTIMAL
      (some (SolverOutput.mk [[1, 0], [0, 1]] [0, 0] [0, 0] 0)) [1, 1] =
      .ok (GroupingResult.mk [1, 2] 0 [0, 0]) := by
    rw [extract_and_verify_solution_some]
    have c1 : (([[1, 0], [0, 1]] : List (List Rat)).all fun row =>
        npIsClose row.sum 1) = true := by
      simp only [List.all_cons, List.all_nil, List.sum_cons, List.sum_nil, Bool.and_eq_true,
        Bool.and_true]
      norm_num [npIsClose_self]
    have c2 : ((List.range ([1, 1] : List Int).length).all fun j =>
        npIsClose (colSum [[1, 0], [0, 1]] j)
          ((([1, 1] : List Int).getD j 0 : Int) : Rat)) = true := by
      norm_num [List.range_succ, colSum, npIsClose_self]
    have c3 : npIsClose (0 : Rat)
        (((List.zipWith (fun a b => a - b) ([0, 0] : List Rat) ([0, 0] : List Rat)).map
          (fun d => |d|)).sum) = true := by
      norm_num [npIsClose_self]
    rw [if_neg (not_not_intro c1), if_neg (not_not_intro c2), if_neg (not_not_intro c3)]
    norm_num [npWhereCols, List.range_succ]
  exact ⟨hok, C3_extractor_validation.1 Status.OPTIMAL
    (SolverOutput.mk [[1, 0], [0, 1]] [0, 0] [0, 0] 0) [1, 1]
    (GroupingResult.mk [1, 2] 0 [0, 0]) hok⟩

/-- C4: on a status that is neither OPTIMAL nor FEASIBLE the solver leaves
all variable values absent, and extraction crashes with a `TypeError` from
summing the `None`-filled array — not with a `SolverError`-class error;
moreover the code never branches on the status at all: extraction is
independent of the status argument. -/
theorem C4_no_status_branch :
    extract_and_verify_solution Status.INFEASIBLE none [2, 2] =
      .error (.typeError "unsupported operand type(s) for +: NoneType and NoneType") ∧
    ∀ (st st' : Status) (sol : Option SolverOutput) (gs : List Int),
      extract_and_verify_solution st sol gs = extract_and_verify_solution st' sol gs :=
  ⟨rfl, fun _ _ _ _ => rfl⟩

/-- The indices of nonzero entries of `v :: rest` are index 0 (when
`v ≠ 0`) together with the shifted nonzero indices of `rest`. -/
lemma filter_nonzero_cons (v : Rat) (rest : List Rat) :
    ((List.range (v :: rest).length).filter fun j =>
      decide ((v :: rest).getD j 0 ≠ 0)) =
    ((if v ≠ 0 then [0] else []) ++
      ((List.range rest.length).filter fun j =>
        decide (rest.getD j 0 ≠ 0)).map Nat.succ) := by
  rw [List.length_cons, List.range_succ_eq_map, List.filter_cons, List.filter_map]
  have hcong : ((fun j => decide ((v :: rest).getD j 0 ≠ 0)) ∘ Nat.succ) =
      fun j => decide (rest.getD j 0 ≠ 0) := by
    funext j
    simp [Function.comp, List.getD_cons_succ]
  rw [hcong]
  by_cases hz0 : v = 0 <;> simp [hz0]

/-- A 0/1-valued list sums to the number of its nonzero positions. -/
lemma binary_row_sum_eq_filter_length (row : List Rat)
    (hbin : ∀ v ∈ row, v = 0 ∨ v = 1) :
    row.sum = ((((List.range row.length).filter fun j =>
      decide (row.getD j 0 ≠ 0)).length : Nat) : Rat) := by
  induction row with
  | nil => simp
  | cons v rest ih =>
    have hv := hbin v (List.mem_cons_self v rest)
    have hrest : ∀ w ∈ rest, w = 0 ∨ w = 1 := fun w hw => hbin w (List.mem_cons_of_mem v hw)
    rw [List.sum_cons, ih hrest, filter_nonzero_cons, List.length_append, List.length_map]
    rcases hv with rfl | rfl
    · simp
    · norm_num

/-- A natural number accepted by `np.isclose(., 1)` is exactly 1. -/
lemma npIsClose_nat_one {k : Nat} (h : npIsClose (k : Rat) 1 = true) : k = 1 := by
  simp only [npIsClose, decide_eq_true_eq, abs_one] at h
  by_contra hne
  have hk : k = 0 ∨ 2 ≤ k := by omega
  rcases hk with rfl | h2
  · norm_num at h
  · have hge : (2 : Rat) ≤ (k : Rat) := by exact_mod_cast h2
    rw [abs_of_nonneg (by linarith)] at h
    linarith

/-- In a 0/1-valued row whose sum passes the `np.isclose(., 1)` check,
there is exactly one nonzero position: the filter of nonzero indices is a
singleton `[j]` with `row[j] = 1` and all other entries zero. -/
lemma binary_row_filter_singleton (row : List Rat)
    (hbin : ∀ v ∈ row, v = 0 ∨ v = 1) (hsum : npIsClose row.sum 1 = true) :
    ∃ j, j < row.length ∧
      ((List.range row.length).filter fun j' => decide (row.getD j' 0 ≠ 0)) = [j] ∧
      row.getD j 0 = 1 ∧ ∀ j' < row.length, j' ≠ j → row.getD j' 0 = 0 := by
  rw [binary_row_sum_eq_filter_length row hbin] at hsum
  obtain ⟨j, hj⟩ := List.length_eq_one.mp (npIsClose_nat_one hsum)
  have hjmem : j ∈ (List.range row.length).filter fun j' =>
      decide (row.getD j' 0 ≠ 0) := by
    rw [hj]
    exact List.mem_singleton_self j
  have hjlt : j < row.length := List.mem_range.mp (List.mem_of_mem_filter hjmem)
  have hjnz : row.getD j 0 ≠ 0 := by
    have := List.of_mem_filter hjmem
    simpa using this
  refine ⟨j, hjlt, hj, ?_, ?_⟩
  · have hmem : row.getD j 0 ∈ row := by
      rw [List.getD_eq_getElem?_getD, List.getElem?_eq_getElem hjlt]
      exact List.getElem_mem hjlt
    rcases hbin _ hmem with h0 | h1
    · exact absurd h0 hjnz
    · exact h1
  · intro j' hj' hne
    by_contra hnz
    have hmem' : j' ∈ (List.range row.length).filter fun j'' =>
        decide (row.getD j'' 0 ≠ 0) :=
      List.mem_filter.mpr ⟨List.mem_range.mpr hj', by simpa using hnz⟩
    rw [hj] at hmem'
    exact hne (List.mem_singleton.mp hmem')

/-- Extraction succeeding implies the row check passed and pins down the
shape of the returned result. -/
lemma extract_ok_shape (st : Status) (s : SolverOutput) (gs : List Int)
    (r : GroupingResult) (h : extract_and_verify_solution st (some s) gs = .ok r) :
    (s.xvals.all fun row => npIsClose row.sum 1) = true ∧
    r = GroupingResult.mk ((npWhereCols s.xvals).map (fun j => j + 1))
      s.objective_value (List.zipWith (fun a b => a - b) s.yposvals s.ynegvals) := by
  rw [extract_and_verify_solution_some] at h
  by_cases h1 : (s.xvals.all fun row => npIsClose row.sum 1) = true
  · rw [if_neg (not_not_intro h1)] at h
    by_cases h2 : ((List.range gs.length).all fun j =>
        npIsClose (colSum s.xvals j) ((gs.getD j 0 : Int) : Rat)) = true
    · rw [if_neg (not_not_intro h2)] at h
      by_cases h3 : npIsClose s.objective_value
          (((List.zipWith (fun a b => a - b) s.yposvals s.ynegvals).map
            (fun d => |d|)).sum) = true
      · rw [if_neg (not_not_intro h3)] at h
        exact ⟨h1, (Except.ok.inj h).symm⟩
      · rw [if_pos h3] at h
        exact absurd h (by simp)
    · rw [if_pos h2] at h
      exact absurd h (by simp)
  · rw [if_pos h1] at h
    exact absurd h (by simp)

/-- `np.where`-based label extraction, one label per row, when every row
has a singleton set of nonzero indices. -/
lemma npWhereCols_forall2 {P : List Rat → Nat → Prop} :
    ∀ xs : List (List Rat),
      (∀ row ∈ xs, ∃ j, ((List.range row.length).filter fun j' =>
        decide (row.getD j' 0 ≠ 0)) = [j] ∧ P row j) →
      List.Forall₂ (fun row label => ∃ j, P row j ∧ label = j + 1)
        xs ((npWhereCols xs).map fun j => j + 1) := by
  intro xs
  induction xs with
  | nil =>
    intro _
    simp [npWhereCols]
  | cons row rest ih =>
    intro h
    obtain ⟨j, hfil, hP⟩ := h row (List.mem_cons_self row rest)
    have hrest := ih fun r hr => h r (List.mem_cons_of_mem row hr)
    have hcons : npWhereCols (row :: rest) = j :: npWhereCols rest := by
      unfold npWhereCols
      rw [List.flatMap_cons, hfil, List.singleton_append]
    rw [hcons, List.map_cons]
    exact List.Forall₂.cons ⟨j, hP, rfl⟩ hrest

/-- C7, counterexample: raw x values of 1/2 everywhere are accepted by the
extractor (each row sums to 1, each column to its group size), but no
0.5-thresholding or argmax is applied: `np.where` collects *every* nonzero
entry, so 4 items receive 8 labels — items do not receive exactly one
label each. -/
theorem C7_counterexample_fractional_values :
    extract_and_verify_solution Status.OPTIMAL
        (some (SolverOutput.mk
          [[1/2, 1/2], [1/2, 1/2], [1/2, 1/2], [1/2, 1/2]] [0, 0] [0, 0] 0))
        [2, 2] =
      .ok (GroupingResult.mk [1, 2, 1, 2, 1, 2, 1, 2] 0 [0, 0]) ∧
    (GroupingResult.mk [1, 2, 1, 2, 1, 2, 1, 2] 0 ([0, 0] : List Rat)).mouse_grouping.length ≠
      ([[1/2, 1/2], [1/2, 1/2], [1/2, 1/2], [1/2, 1/2]] : List (List Rat)).length := by
  constructor
  · rw [extract_and_verify_solution_some]
    have c1 : (([[1/2, 1/2], [1/2, 1/2], [1/2, 1/2], [1/2, 1/2]] : List (List Rat)).all
        fun row => npIsClose row.sum 1) = true := by
      simp only [List.all_cons, List.all_nil, List.sum_cons, List.sum_nil, Bool.and_eq_true,
        Bool.and_true]
      norm_num [npIsClose_self]
    have c2 : ((List.range ([2, 2] : List Int).length).all fun j =>
        npIsClose (colSum [[1/2, 1/2], [1/2, 1/2], [1/2, 1/2], [1/2, 1/2]] j)
          ((([2, 2] : List Int).getD j 0 : Int) : Rat)) = true := by
      norm_num [List.range_succ, colSum, npIsClose_self]
    have c3 : npIsClose (0 : Rat)
        (((List.zipWith (fun a b => a - b) ([0, 0] : List Rat) ([0, 0] : List Rat)).map
          (fun d => |d|)).sum) = true := by
      norm_num [npIsClose_self]
    rw [if_neg (not_not_intro c1), if_neg (not_not_intro c2), if_neg (not_not_intro c3)]
    norm_num [npWhereCols, List.range_succ]
  · decide

/-- C7 (amended): when the accepted raw solver values are exact binaries
(every entry 0 or 1, matrix rectangular over the groups), each item's row
has exactly one entry equal to 1, and the extracted grouping assigns each
item the 1-based label `j + 1` of that unique group `j` (which is also the
argmax); with non-binary accepted values the code instead collects all
nonzero columns, so an item can receive several labels. -/
theorem C7_amended_exact_binary_extraction (st : Status) (s : SolverOutput)
    (gs : List Int) (r : GroupingResult)
    (hbin : ∀ row ∈ s.xvals, ∀ v ∈ row, v = 0 ∨ v = 1)
    (hrect : ∀ row ∈ s.xvals, row.length = gs.length)
    (hok : extract_and_verify_solution st (some s) gs = .ok r) :
    List.Forall₂ (fun (row : List Rat) (label : Nat) =>
      ∃ j, (j < gs.length ∧ row.getD j 0 = 1 ∧
        ∀ j' < gs.length, j' ≠ j → row.getD j' 0 = 0) ∧ label = j + 1)
      s.xvals r.mouse_grouping := by
  obtain ⟨hall, rfl⟩ := extract_ok_shape st s gs r hok
  have hrows : ∀ row ∈ s.xvals, npIsClose row.sum 1 = true := by
    rw [List.all_eq_true] at hall
    intro row hr
    simpa using hall row hr
  exact @npWhereCols_forall2
    (fun row j => j < gs.length ∧ row.getD j 0 = 1 ∧
      ∀ j' < gs.length, j' ≠ j → row.getD j' 0 = 0)
    s.xvals
    (by
      intro row hr
      obtain ⟨j, hjlt, hfil, h1, h0⟩ :=
        binary_row_filter_singleton row (hbin row hr) (hrows row hr)
      have hlen : row.length = gs.length := hrect row hr
      exact ⟨j, hfil, by omega, h1, fun j' hj' hne => h0 j' (by omega) hne⟩)

/-- Witness for the amended C7 at a concrete exact-binary solver output. -/
theorem C7_amended_exact_binary_extraction_witness :
    (∀ row ∈ ([[1, 0], [0, 1], [1, 0]] : List (List Rat)), ∀ v ∈ row, v = 0 ∨ v = 1) ∧
    (∀ row ∈ ([[1, 0], [0, 1], [1, 0]] : List (List Rat)),
      row.length = ([2, 1] : List Int).length) ∧
    extract_and_verify_solution Status.OPTIMAL
        (some (SolverOutput.mk [[1, 0], [0, 1], [1, 0]] [0, 0] [0, 0] 0)) [2, 1] =
      .ok (GroupingResult.mk [1, 2, 1] 0 [0, 0]) ∧
    List.Forall₂ (fun (row : List Rat) (label : Nat) =>
      ∃ j, (j < ([2, 1] : List Int).length ∧ row.getD j 0 = 1 ∧
        ∀ j' < ([2, 1] : List Int).length, j' ≠ j → row.getD j' 0 = 0) ∧ label = j + 1)
      ([[1, 0], [0, 1], [1, 0]] : List (List Rat))
      (GroupingResult.mk [1, 2, 1] 0 ([0, 0] : List Rat)).mouse_grouping := by
  have hbin : ∀ row ∈ ([[1, 0], [0, 1], [1, 0]] : List (List Rat)),
      ∀ v ∈ row, v = 0 ∨ v = 1 := by decide
  have hrect : ∀ row ∈ ([[1, 0], [0, 1], [1, 0]] : List (List Rat)),
      row.length = ([2, 1] : List Int).length := by decide
  have hok : extract_and_verify_solution Status.OPTIMAL
      (some (SolverOutput.mk [[1, 0], [0, 1], [1, 0]] [0, 0] [0, 0] 0)) [2, 1] =
      .ok (GroupingResult.mk [1, 2, 1] 0 [0, 0]) := by
    rw [extract_and_verify_solution_some]
    have c1 : (([[1, 0], [0, 1], [1, 0]] : List (List Rat)).all
        fun row => npIsClose row.sum 1) = true := by
      simp only [List.all_cons, List.all_nil, List.sum_cons, List.sum_nil, Bool.and_eq_true,
        Bool.and_true]
      norm_num [npIsClose_self]
    have c2 : ((List.range ([2, 1] : List Int).length).all fun j =>
        npIsClose (colSum [[1, 0], [0, 1], [1, 0]] j)
          ((([2, 1] : List Int).getD j 0 : Int) : Rat)) = true := by
      norm_num [List.range_succ, colSum, npIsClose_self]
    have c3 : npIsClose (0 : Rat)
        (((List.zipWith (fun a b => a - b) ([0, 0] : List Rat) ([0, 0] : List Rat)).map
          (fun d => |d|)).sum) = true := by
      norm_num [npIsClose_self]
    rw [if_neg (not_not_intro c1), if_neg (not_not_intro c2), if_neg (not_not_intro c3)]
    norm_num [npWhereCols, List.range_succ]
  exact ⟨hbin, hrect, hok, C7_amended_exact_binary_extraction Status.OPTIMAL
    (SolverOutput.mk [[1, 0], [0, 1], [1, 0]] [0, 0] [0, 0] 0) [2, 1]
    (GroupingResult.mk [1, 2, 1] 0 [0, 0]) hbin hrect hok⟩
